import Mathlib

/-!
Shallow embedding of the GeoGrid module (`src/utils/GeoGrid.ts`) of the
here-now repository, together with proofs settling the frozen claims about
it.

Modelling conventions:
* JS strings are modelled as `List Char` (`Str`); `String.prototype.split`
  with the one-character separator `'-'` is modelled by `splitOnChar`,
  which reproduces JS semantics (empty parts preserved, `n` separators
  yield `n+1` parts).
* JS numbers are modelled as exact rationals (every IEEE double is a
  rational; the numeric literals of the source are embedded exactly).
  The codec definitions are polymorphic over a `LinearOrderedField` with
  a `FloorRing` so that the same definitions serve both the computable
  instance `ℚ` (used for concrete evaluations) and `ℝ` (used where the
  source mixes in transcendental functions: `getDistance`,
  `getGridCodesInRadius`).
* `Math.floor` is `Int.floor`; the JS `%` operator on numbers (truncated
  remainder, sign of the dividend) is `jsFmod`; JS `%`, `Math.floor (· / ·)`
  on integer values are `Int.tmod` and `Int.fdiv`.
* A JS `throw` is modelled as `Except.error`.
-/

/-- JS strings, modelled as lists of characters. -/
abbrev Str := List Char

/-- Splits a character list at every occurrence of `sep`, JS
`String.prototype.split` semantics for a one-character separator:
`n` separators yield `n + 1` (possibly empty) parts. -/
def splitOnChar (sep : Char) : List Char → List (List Char)
  | [] => [[]]
  | c :: rest =>
    let parts := splitOnChar sep rest
    if c = sep then [] :: parts
    else
      match parts with
      | [] => [[c]]
      | p :: ps => (c :: p) :: ps

/-- Joins parts with a single `sep` character between them; the inverse of
`splitOnChar` on its image. -/
def joinSep (sep : Char) : List (List Char) → List Char
  | [] => []
  | [a] => a
  | a :: rest => a ++ sep :: joinSep sep rest

/-- The source's `ALPHABET` constant:
`'23456789BCDFGHJKMNPQRSTVWXZ'` (27 characters, excluding 0, O, 1, I, L). -/
def ALPHABET_LIST : List Char :=
  ['2', '3', '4', '5', '6', '7', '8', '9', 'B', 'C', 'D', 'F', 'G', 'H',
   'J', 'K', 'M', 'N', 'P', 'Q', 'R', 'S', 'T', 'V', 'W', 'X', 'Z']

/-- The source's `BASE = ALPHABET.length`. -/
def BASE : ℤ := (ALPHABET_LIST.length : ℤ)

/-- JS `ALPHABET[d]` followed by string concatenation: a one-character
string for an in-range index, and the string `"undefined"` otherwise
(string concatenation coerces the `undefined` value to that text). -/
def alphaStr (d : ℤ) : Str :=
  if 0 ≤ d ∧ d < BASE then [ALPHABET_LIST.getD d.toNat '?'] else "undefined".toList

/-- Helper for `jsIndexOf`: position of `target` in the list starting at
accumulator `i`, or `-1` when absent. -/
def jsIndexOfAux : List Char → Char → ℤ → ℤ
  | [], _, _ => -1
  | c :: rest, target, i => if c = target then i else jsIndexOfAux rest target (i + 1)

/-- JS `ALPHABET.indexOf(ch)`: index of `ch` in the alphabet, `-1` when absent. -/
def jsIndexOf (c : Char) : ℤ := jsIndexOfAux ALPHABET_LIST c 0

section GeoGridDefs

variable {α : Type} [LinearOrderedField α] [FloorRing α]

/-- The source's `LATITUDE_PRECISION = 0.00009` (embedded exactly). -/
def LATITUDE_PRECISION : α := 9 / 100000

/-- The source's `LONGITUDE_PRECISION = 0.00009` (embedded exactly). -/
def LONGITUDE_PRECISION : α := 9 / 100000

/-- JS truncation toward zero (what `a % b` divides by). -/
def jsTrunc (x : α) : ℤ := if 0 ≤ x then ⌊x⌋ else ⌈x⌉

/-- The JS `%` operator on numbers: truncated remainder,
`a - b * trunc (a / b)`. -/
def jsFmod (a b : α) : α := a - b * (jsTrunc (a / b) : α)

/-- The source's `GeoCoordinate` record. -/
structure GeoCoordinate (α : Type) where
  latitude : α
  longitude : α
deriving DecidableEq

/-- Digit loop of the source's `encodeBase32`: prepends `length` base-27
digits of `n` (least significant digit produced first, ending rightmost);
`n % BASE` is JS truncated `%` on integers (`Int.tmod`), and
`Math.floor(n / BASE)` is `Int.fdiv`. -/
def encodeBase32Aux : ℤ → ℕ → Str
  | _, 0 => []
  | n, k + 1 => encodeBase32Aux (Int.fdiv n BASE) k ++ alphaStr (Int.tmod n BASE)

/-- The source's `encodeBase32(num, length)`: `let n = Math.floor(num)`
followed by the digit loop. -/
def encodeBase32 (num : α) (length : ℕ) : Str :=
  encodeBase32Aux ⌊num⌋ length

/-- The source's `decodeBase32(str)`:
`result = result * BASE + ALPHABET.indexOf(str[i])` over the characters. -/
def decodeBase32 (s : Str) : ℤ :=
  s.foldl (fun result c => result * BASE + jsIndexOf c) 0

/-- The source's `coordinateToGridCode`: normalizes the coordinate,
quantizes both axes at the fixed precision, base-32-encodes the two
indices on 4 characters each, derives the 5x5 sub-cell index from the
fractional remainders, and concatenates `latCode-lngCode-subCode`. -/
def coordinateToGridCode (coord : GeoCoordinate α) : Str :=
  let normalizedLat := coord.latitude + 90
  let normalizedLng := coord.longitude + 180
  let latIndex : ℤ := ⌊normalizedLat / LATITUDE_PRECISION⌋
  let lngIndex : ℤ := ⌊normalizedLng / LONGITUDE_PRECISION⌋
  let latCode := encodeBase32 (latIndex : α) 4
  let lngCode := encodeBase32 (lngIndex : α) 4
  let latRemainder := jsFmod normalizedLat LATITUDE_PRECISION / LATITUDE_PRECISION
  let lngRemainder := jsFmod normalizedLng LONGITUDE_PRECISION / LONGITUDE_PRECISION
  let subIndex : ℤ := ⌊latRemainder * 5⌋ * 5 + ⌊lngRemainder * 5⌋
  let subCode := encodeBase32 (subIndex : α) 2
  latCode ++ '-' :: lngCode ++ '-' :: subCode

/-- The source's `gridCodeToCoordinate`: splits on `'-'`, throws
`'Invalid grid code format'` unless exactly three parts result, decodes
each part and returns the center of the identified sub-cell.
`Math.floor(subIndex / 5)` is `Int.fdiv`, `subIndex % 5` is `Int.tmod`. -/
def gridCodeToCoordinate (code : Str) : Except Str (GeoCoordinate α) :=
  match splitOnChar '-' code with
  | [latCode, lngCode, subCode] =>
    let latIndex := decodeBase32 latCode
    let lngIndex := decodeBase32 lngCode
    let subIndex := decodeBase32 subCode
    let subLat := Int.fdiv subIndex 5
    let subLng := Int.tmod subIndex 5
    Except.ok
      { latitude := (latIndex : α) * LATITUDE_PRECISION - 90 +
          ((subLat : α) + 1 / 2) * (LATITUDE_PRECISION / 5),
        longitude := (lngIndex : α) * LONGITUDE_PRECISION - 180 +
          ((subLng : α) + 1 / 2) * (LONGITUDE_PRECISION / 5) }
  | _ => Except.error "Invalid grid code format".toList

/-- The source's `isValidGridCode`, i.e. the anchored regular expression
`[ALPHABET]{4}-[ALPHABET]{4}-[ALPHABET]{2}`: since `'-'` is not in the
alphabet, a string matches exactly when splitting on `'-'` yields three
parts of lengths 4, 4 and 2 whose characters all belong to the alphabet. -/
def isValidGridCode (code : Str) : Bool :=
  match splitOnChar '-' code with
  | [a, b, c] =>
    a.length == 4 && b.length == 4 && c.length == 2 &&
      a.all (ALPHABET_LIST.contains ·) && b.all (ALPHABET_LIST.contains ·) &&
      c.all (ALPHABET_LIST.contains ·)
  | _ => false

/-- JS `Math.round`: round half toward positive infinity. -/
def jsRound (x : α) : ℤ := ⌊x + 1 / 2⌋

/-- Decimal rendering of an integer, as JS string interpolation produces. -/
def intToStr (i : ℤ) : Str :=
  if i < 0 then '-' :: Nat.toDigits 10 i.natAbs else Nat.toDigits 10 i.toNat

/-- JS `Number.prototype.toFixed(1)` for the nonnegative arguments the
source feeds it (`meters / 1000` with `meters ≥ 1000`): the digits of the
integer `n` closest to `10 * x` (ties toward the larger `n`), with the
last digit after a decimal point. -/
def toFixed1 (x : α) : Str :=
  intToStr (⌊x * 10 + 1 / 2⌋ / 10) ++ '.' :: intToStr (⌊x * 10 + 1 / 2⌋ % 10)

/-- The source's `formatDistance`: `"<round(m)>m"` below 1000, otherwise
`"<(m/1000).toFixed(1)>km"`. -/
def formatDistance (meters : α) : Str :=
  if meters < 1000 then intToStr (jsRound meters) ++ ['m']
  else toFixed1 (meters / 1000) ++ ['k', 'm']

end GeoGridDefs

/-! ### The haversine distance (`getDistance`) over `ℝ` -/

/-- JS `Math.atan2 y x` for real (non-NaN) arguments. -/
noncomputable def atan2 (y x : ℝ) : ℝ :=
  if 0 < x then Real.arctan (y / x)
  else if x < 0 then
    if 0 ≤ y then Real.arctan (y / x) + Real.pi else Real.arctan (y / x) - Real.pi
  else if 0 < y then Real.pi / 2
  else if y < 0 then -(Real.pi / 2)
  else 0

/-- The source's `getDistance`: haversine formula with Earth radius
6371000 meters. -/
noncomputable def getDistance (coord1 coord2 : GeoCoordinate ℝ) : ℝ :=
  let R : ℝ := 6371000
  let lat1Rad := coord1.latitude * Real.pi / 180
  let lat2Rad := coord2.latitude * Real.pi / 180
  let deltaLat := (coord2.latitude - coord1.latitude) * Real.pi / 180
  let deltaLng := (coord2.longitude - coord1.longitude) * Real.pi / 180
  let a := Real.sin (deltaLat / 2) * Real.sin (deltaLat / 2) +
    Real.cos lat1Rad * Real.cos lat2Rad * Real.sin (deltaLng / 2) * Real.sin (deltaLng / 2)
  let c := 2 * atan2 (Real.sqrt a) (Real.sqrt (1 - a))
  R * c

/-! ### Radius enumeration (`getGridCodesInRadius`) over `ℝ` -/

/-- JS `Set.add` followed by `Array.from`: appends an element unless
already present, preserving insertion order. -/
def insertIfNew (l : List Str) (s : Str) : List Str :=
  if s ∈ l then l else l ++ [s]

/-- Number of iterations of the JS loop
`for (v = start; v <= stop; v += step)` in exact arithmetic, for positive
`step`: the values taken are `start + k * step` for `k < loopCount`. -/
noncomputable def loopCount (start stop step : ℝ) : ℕ :=
  if start ≤ stop then (⌊(stop - start) / step⌋).toNat + 1 else 0

/-- The source's `getGridCodesInRadius`: steps a lattice at the encoding
precision across the bounding box of the radius, keeps the sample points
within haversine distance, and collects their codes into an
insertion-ordered set. -/
noncomputable def getGridCodesInRadius (center : GeoCoordinate ℝ)
    (radiusMeters : ℝ) : List Str :=
  let latDegrees := radiusMeters / 111000
  let lngDegrees := radiusMeters / (111000 * Real.cos (center.latitude * Real.pi / 180))
  let latStart := center.latitude - latDegrees
  let lngStart := center.longitude - lngDegrees
  (List.range (loopCount latStart (center.latitude + latDegrees) LATITUDE_PRECISION)).foldl
    (fun codes (i : ℕ) =>
      let lat := latStart + (i : ℝ) * LATITUDE_PRECISION
      (List.range (loopCount lngStart (center.longitude + lngDegrees)
          LONGITUDE_PRECISION)).foldl
        (fun codes (j : ℕ) =>
          let lng := lngStart + (j : ℝ) * LONGITUDE_PRECISION
          let distance := getDistance center ⟨lat, lng⟩
          if distance ≤ radiusMeters then insertIfNew codes (coordinateToGridCode ⟨lat, lng⟩)
          else codes)
        codes)
    []


/-! ### Properties of `splitOnChar` and `joinSep` -/

theorem splitOnChar_cons (sep c : Char) (rest : List Char) :
    splitOnChar sep (c :: rest) =
      if c = sep then [] :: splitOnChar sep rest
      else
        match splitOnChar sep rest with
        | [] => [[c]]
        | p :: ps => (c :: p) :: ps := rfl

theorem splitOnChar_ne_nil (sep : Char) (l : List Char) : splitOnChar sep l ≠ [] := by
  induction l with
  | nil => simp [splitOnChar]
  | cons c rest ih =>
    rw [splitOnChar_cons]
    by_cases h : c = sep
    · simp [h]
    · simp only [h, if_false]
      cases hp : splitOnChar sep rest with
      | nil => simp
      | cons p ps => simp

theorem splitOnChar_of_not_mem {sep : Char} {a : List Char} (h : sep ∉ a) :
    splitOnChar sep a = [a] := by
  induction a with
  | nil => rfl
  | cons c rest ih =>
    simp only [List.mem_cons, not_or] at h
    rw [splitOnChar_cons, if_neg (fun hc => h.1 hc.symm), ih h.2]

theorem splitOnChar_append_sep {sep : Char} {a : List Char} (t : List Char) (h : sep ∉ a) :
    splitOnChar sep (a ++ sep :: t) = a :: splitOnChar sep t := by
  induction a with
  | nil => simp [splitOnChar_cons]
  | cons c rest ih =>
    simp only [List.mem_cons, not_or] at h
    rw [List.cons_append, splitOnChar_cons, if_neg (fun hc => h.1 hc.symm), ih h.2]

theorem joinSep_splitOnChar (sep : Char) (s : List Char) :
    joinSep sep (splitOnChar sep s) = s ∧ ∀ p ∈ splitOnChar sep s, sep ∉ p := by
  induction s with
  | nil => simp [splitOnChar, joinSep]
  | cons c rest ih =>
    cases hp : splitOnChar sep rest with
    | nil => exact absurd hp (splitOnChar_ne_nil sep rest)
    | cons p ps =>
      rw [hp] at ih
      by_cases hc : c = sep
      · subst hc
        constructor
        · rw [splitOnChar_cons, if_pos rfl, hp]
          cases ps with
          | nil => simpa [joinSep] using ih.1
          | cons q qs => simpa [joinSep] using ih.1
        · intro x hx
          rw [splitOnChar_cons, if_pos rfl, hp] at hx
          rcases List.mem_cons.mp hx with rfl | hx
          · simp
          · exact ih.2 x hx
      · constructor
        · rw [splitOnChar_cons, if_neg hc, hp]
          cases ps with
          | nil =>
            have h1 := ih.1
            simp only [joinSep] at h1 ⊢
            rw [h1]
          | cons q qs =>
            have h1 := ih.1
            simp only [joinSep] at h1 ⊢
            rw [List.cons_append, h1]
        · intro x hx
          rw [splitOnChar_cons, if_neg hc, hp] at hx
          rcases List.mem_cons.mp hx with rfl | hx
          · have h1 : sep ∉ p := ih.2 p (by simp)
            simp only [List.mem_cons, not_or]
            exact ⟨fun hsc => hc hsc.symm, h1⟩
          · exact ih.2 x (by simp [hx])

theorem splitOnChar_eq_three_iff {sep : Char} {s a b c : List Char} :
    splitOnChar sep s = [a, b, c] ↔
      s = a ++ sep :: (b ++ sep :: c) ∧ sep ∉ a ∧ sep ∉ b ∧ sep ∉ c := by
  constructor
  · intro h
    have hj := (joinSep_splitOnChar sep s).1
    have hm := (joinSep_splitOnChar sep s).2
    rw [h] at hj hm
    refine ⟨?_, hm a (by simp), hm b (by simp), hm c (by simp)⟩
    simp only [joinSep] at hj
    simp [← hj]
  · rintro ⟨rfl, ha, hb, hc⟩
    rw [splitOnChar_append_sep _ ha, splitOnChar_append_sep _ hb, splitOnChar_of_not_mem hc]

/-! ### Alphabet and base-27 digit facts -/

theorem BASE_eq : BASE = 27 := by decide

theorem dash_not_mem_alphabet : '-' ∉ ALPHABET_LIST := by decide

theorem jsIndexOf_getD : ∀ i : ℕ, i < 27 → jsIndexOf (ALPHABET_LIST.getD i '?') = (i : ℤ) := by
  decide

theorem getD_mem_alphabet : ∀ i : ℕ, i < 27 → ALPHABET_LIST.getD i '?' ∈ ALPHABET_LIST := by
  decide

theorem alphaStr_natCast (i : ℕ) (h : i < 27) :
    alphaStr (i : ℤ) = [ALPHABET_LIST.getD i '?'] := by
  rw [alphaStr, BASE_eq, if_pos ⟨Int.natCast_nonneg i, by exact_mod_cast h⟩, Int.toNat_natCast]

theorem encodeBase32Aux_natCast_step (m k : ℕ) :
    encodeBase32Aux (m : ℤ) (k + 1) =
      encodeBase32Aux ((m / 27 : ℕ) : ℤ) k ++ [ALPHABET_LIST.getD (m % 27) '?'] := by
  have h1 : Int.fdiv (m : ℤ) BASE = ((m / 27 : ℕ) : ℤ) := by
    rw [BASE_eq, Int.fdiv_eq_ediv _ (by norm_num)]
    exact (Int.ofNat_ediv m 27).symm
  have h2 : Int.tmod (m : ℤ) BASE = ((m % 27 : ℕ) : ℤ) := by
    rw [BASE_eq, Int.tmod_eq_emod (Int.natCast_nonneg m) (by norm_num)]
    exact (Int.ofNat_emod m 27).symm
  rw [encodeBase32Aux, h1, h2, alphaStr_natCast (m % 27) (Nat.mod_lt m (by norm_num))]

theorem length_encodeBase32Aux (m k : ℕ) : (encodeBase32Aux (m : ℤ) k).length = k := by
  induction k generalizing m with
  | zero => rfl
  | succ k ih =>
    rw [encodeBase32Aux_natCast_step, List.length_append, ih]
    rfl

theorem mem_encodeBase32Aux (m k : ℕ) : ∀ c ∈ encodeBase32Aux (m : ℤ) k, c ∈ ALPHABET_LIST := by
  induction k generalizing m with
  | zero => simp [encodeBase32Aux]
  | succ k ih =>
    rw [encodeBase32Aux_natCast_step]
    intro c hc
    rcases List.mem_append.mp hc with h | h
    · exact ih _ c h
    · rw [List.mem_singleton.mp h]
      exact getD_mem_alphabet _ (Nat.mod_lt m (by norm_num))

theorem dash_not_mem_encodeBase32Aux (m k : ℕ) : '-' ∉ encodeBase32Aux (m : ℤ) k :=
  fun h => dash_not_mem_alphabet (mem_encodeBase32Aux m k '-' h)

theorem encodeBase32Aux_mod (m k : ℕ) :
    encodeBase32Aux (m : ℤ) k = encodeBase32Aux ((m % 27 ^ k : ℕ) : ℤ) k := by
  induction k generalizing m with
  | zero => rfl
  | succ k ih =>
    rw [encodeBase32Aux_natCast_step, encodeBase32Aux_natCast_step]
    have hmod : m % 27 ^ (k + 1) % 27 = m % 27 :=
      Nat.mod_mod_of_dvd m (dvd_pow_self 27 k.succ_ne_zero)
    have hdiv : m % 27 ^ (k + 1) / 27 = m / 27 % 27 ^ k := by
      rw [pow_succ']
      exact Nat.mod_mul_right_div_self m 27 (27 ^ k)
    rw [hmod, hdiv, ih]

theorem decode_append_char (s : Str) (c : Char) :
    decodeBase32 (s ++ [c]) = decodeBase32 s * BASE + jsIndexOf c := by
  simp [decodeBase32, List.foldl_append]

theorem decodeBase32_encodeBase32Aux (m k : ℕ) :
    decodeBase32 (encodeBase32Aux (m : ℤ) k) = ((m % 27 ^ k : ℕ) : ℤ) := by
  induction k generalizing m with
  | zero => simp [encodeBase32Aux, decodeBase32]
  | succ k ih =>
    rw [encodeBase32Aux_natCast_step, decode_append_char, ih, BASE_eq,
      jsIndexOf_getD _ (Nat.mod_lt m (by norm_num))]
    have key : m / 27 % 27 ^ k * 27 + m % 27 = m % 27 ^ (k + 1) := by
      have h1 : m % 27 ^ (k + 1) / 27 = m / 27 % 27 ^ k := by
        rw [pow_succ']
        exact Nat.mod_mul_right_div_self m 27 (27 ^ k)
      have h2 : m % 27 ^ (k + 1) % 27 = m % 27 :=
        Nat.mod_mod_of_dvd m (dvd_pow_self 27 k.succ_ne_zero)
      calc m / 27 % 27 ^ k * 27 + m % 27
          = m % 27 ^ (k + 1) / 27 * 27 + m % 27 ^ (k + 1) % 27 := by rw [h1, h2]
        _ = m % 27 ^ (k + 1) := by rw [mul_comm]; exact Nat.div_add_mod _ 27
    exact_mod_cast key

/-! ### Arithmetic facts about the quantization -/

section GeoGridLemmas

variable {α : Type} [LinearOrderedField α] [FloorRing α]

theorem latPrec_pos : (0 : α) < LATITUDE_PRECISION := by
  rw [LATITUDE_PRECISION]
  norm_num

theorem lngPrec_pos : (0 : α) < LONGITUDE_PRECISION := latPrec_pos

theorem lngPrec_eq : (LONGITUDE_PRECISION : α) = LATITUDE_PRECISION := rfl

theorem jsFmod_div {a b : α} (ha : 0 ≤ a) (hb : 0 < b) :
    jsFmod a b / b = Int.fract (a / b) := by
  have h0 : 0 ≤ a / b := div_nonneg ha hb.le
  rw [jsFmod, jsTrunc, if_pos h0, sub_div, mul_comm, mul_div_assoc, div_self hb.ne', mul_one,
    Int.self_sub_floor]

/-- Unfolded form of `coordinateToGridCode` for a coordinate whose
normalized components are nonnegative. -/
theorem coordinateToGridCode_eq (lat lng : α) (hlat : 0 ≤ lat + 90) (hlng : 0 ≤ lng + 180) :
    coordinateToGridCode ⟨lat, lng⟩ =
      encodeBase32Aux ⌊(lat + 90) / LATITUDE_PRECISION⌋ 4 ++
        '-' :: (encodeBase32Aux ⌊(lng + 180) / LONGITUDE_PRECISION⌋ 4 ++
          '-' :: encodeBase32Aux
            (⌊Int.fract ((lat + 90) / LATITUDE_PRECISION) * 5⌋ * 5 +
              ⌊Int.fract ((lng + 180) / LONGITUDE_PRECISION) * 5⌋) 2) := by
  simp only [coordinateToGridCode, encodeBase32, Int.floor_intCast]
  rw [jsFmod_div hlat latPrec_pos, jsFmod_div hlng lngPrec_pos]
  simp [List.append_assoc]

/-- Requantizing the center of a decoded sub-cell recovers the cell index
and the sub-cell index. -/
theorem requant_center (L : ℤ) (s : ℤ) (hs0 : 0 ≤ s) (hs5 : s < 5) :
    ⌊((L : α) * LATITUDE_PRECISION + ((s : α) + 1 / 2) * (LATITUDE_PRECISION / 5)) /
        LATITUDE_PRECISION⌋ = L ∧
      ⌊Int.fract (((L : α) * LATITUDE_PRECISION + ((s : α) + 1 / 2) *
          (LATITUDE_PRECISION / 5)) / LATITUDE_PRECISION) * 5⌋ = s := by
  have hp : (0 : α) < LATITUDE_PRECISION := latPrec_pos
  have hsa0 : (0 : α) ≤ (s : α) := by exact_mod_cast hs0
  have hsa4 : (s : α) ≤ 4 := by exact_mod_cast (by omega : s ≤ 4)
  have hx : ((L : α) * LATITUDE_PRECISION + ((s : α) + 1 / 2) * (LATITUDE_PRECISION / 5)) /
      LATITUDE_PRECISION = (L : α) + ((s : α) + 1 / 2) / 5 := by
    field_simp
    ring
  have hy0 : 0 ≤ ((s : α) + 1 / 2) / 5 := by positivity
  have hy1 : ((s : α) + 1 / 2) / 5 < 1 := by
    rw [div_lt_one (by norm_num)]
    linarith
  have hyfloor : ⌊((s : α) + 1 / 2) / 5⌋ = 0 :=
    Int.floor_eq_zero_iff.mpr ⟨hy0, hy1⟩
  constructor
  · rw [hx, Int.floor_int_add, hyfloor, add_zero]
  · rw [hx, Int.fract_int_add, Int.fract_eq_self.mpr ⟨hy0, hy1⟩, div_mul_cancel₀ _
      (by norm_num : (5 : α) ≠ 0)]
    have : (s : α) + 1 / 2 = (s : ℤ) + 1 / 2 := by ring
    rw [this, Int.floor_int_add, Int.floor_eq_zero_iff.mpr ⟨by norm_num, by norm_num⟩, add_zero]

theorem splitOnChar_code (Ln Gn Sn : ℤ) (hL : 0 ≤ Ln) (hG : 0 ≤ Gn) (hS : 0 ≤ Sn) :
    splitOnChar '-' (encodeBase32Aux Ln 4 ++
        '-' :: (encodeBase32Aux Gn 4 ++ '-' :: encodeBase32Aux Sn 2)) =
      [encodeBase32Aux Ln 4, encodeBase32Aux Gn 4, encodeBase32Aux Sn 2] := by
  obtain ⟨l, rfl⟩ := Int.eq_ofNat_of_zero_le hL
  obtain ⟨g, rfl⟩ := Int.eq_ofNat_of_zero_le hG
  obtain ⟨s, rfl⟩ := Int.eq_ofNat_of_zero_le hS
  exact splitOnChar_eq_three_iff.mpr
    ⟨rfl, dash_not_mem_encodeBase32Aux l 4, dash_not_mem_encodeBase32Aux g 4,
      dash_not_mem_encodeBase32Aux s 2⟩

end GeoGridLemmas

/-! ### Claim C3: `encode (decode (encode c)) = encode c` -/

/-- Claim C3: re-encoding the decoded center is idempotent: for every
coordinate with latitude in `[-90, 90]` and longitude in `[-180, 180]`,
decoding the encoded grid code succeeds and re-encoding the decoded
coordinate yields the original code. -/
theorem encode_decode_encode_idempotent (lat lng : ℚ)
    (h1 : -90 ≤ lat) (h2 : lat ≤ 90) (h3 : -180 ≤ lng) (h4 : lng ≤ 180) :
    (gridCodeToCoordinate (α := ℚ) (coordinateToGridCode ⟨lat, lng⟩)).map
        (fun c => coordinateToGridCode c) =
      Except.ok (coordinateToGridCode ⟨lat, lng⟩) := by
  have hp : (0 : ℚ) < LATITUDE_PRECISION := latPrec_pos
  have hlat : 0 ≤ lat + 90 := by linarith
  have hlng : 0 ≤ lng + 180 := by linarith
  rw [coordinateToGridCode_eq lat lng hlat hlng]
  set L := ⌊(lat + 90) / LATITUDE_PRECISION⌋ with hLdef
  set G := ⌊(lng + 180) / LONGITUDE_PRECISION⌋ with hGdef
  set sLat := ⌊Int.fract ((lat + 90) / LATITUDE_PRECISION) * 5⌋ with hsLatdef
  set sLng := ⌊Int.fract ((lng + 180) / LONGITUDE_PRECISION) * 5⌋ with hsLngdef
  have hL0 : 0 ≤ L := Int.floor_nonneg.mpr (div_nonneg hlat hp.le)
  have hG0 : 0 ≤ G := Int.floor_nonneg.mpr (div_nonneg hlng lngPrec_pos.le)
  have hsLat0 : 0 ≤ sLat :=
    Int.floor_nonneg.mpr (mul_nonneg (Int.fract_nonneg _) (by norm_num))
  have hsLng0 : 0 ≤ sLng :=
    Int.floor_nonneg.mpr (mul_nonneg (Int.fract_nonneg _) (by norm_num))
  have hsLat5 : sLat < 5 := by
    have h5 : Int.fract ((lat + 90) / LATITUDE_PRECISION) * 5 < 5 := by
      have := Int.fract_lt_one ((lat + 90) / LATITUDE_PRECISION)
      nlinarith
    exact Int.floor_lt.mpr (by exact_mod_cast h5)
  have hsLng5 : sLng < 5 := by
    have h5 : Int.fract ((lng + 180) / LONGITUDE_PRECISION) * 5 < 5 := by
      have := Int.fract_lt_one ((lng + 180) / LONGITUDE_PRECISION)
      nlinarith
    exact Int.floor_lt.mpr (by exact_mod_cast h5)
  have hS0 : 0 ≤ sLat * 5 + sLng := by positivity
  obtain ⟨Ln, hLn⟩ := Int.eq_ofNat_of_zero_le hL0
  obtain ⟨Gn, hGn⟩ := Int.eq_ofNat_of_zero_le hG0
  obtain ⟨Sn, hSn⟩ := Int.eq_ofNat_of_zero_le hS0
  have hSn729 : Sn < 27 ^ 2 := by
    have h25 : sLat * 5 + sLng < 27 ^ 2 := by omega
    rw [hSn] at h25
    exact_mod_cast h25
  rw [hLn, hGn, hSn]
  rw [gridCodeToCoordinate]
  rw [splitOnChar_code _ _ _ (Int.natCast_nonneg _) (Int.natCast_nonneg _) (Int.natCast_nonneg _)]
  simp only [decodeBase32_encodeBase32Aux, Nat.mod_eq_of_lt hSn729]
  have hfdiv : Int.fdiv ((Sn : ℕ) : ℤ) 5 = sLat := by
    rw [← hSn, Int.fdiv_eq_ediv _ (by norm_num), add_comm,
      Int.add_mul_ediv_right _ _ (by norm_num : (5 : ℤ) ≠ 0),
      Int.ediv_eq_zero_of_lt hsLng0 hsLng5, zero_add]
  have htmod : Int.tmod ((Sn : ℕ) : ℤ) 5 = sLng := by
    rw [← hSn, Int.tmod_eq_emod hS0 (by norm_num), add_comm,
      Int.add_mul_emod_self, Int.emod_eq_of_lt hsLng0 hsLng5]
  rw [hfdiv, htmod]
  simp only [Except.map]
  congr 1
  have hcastL : (0:ℚ) ≤ (((Ln % 27 ^ 4 : ℕ) : ℤ) : ℚ) := by positivity
  have hcastG : (0:ℚ) ≤ (((Gn % 27 ^ 4 : ℕ) : ℤ) : ℚ) := by positivity
  have hsLatq : (0:ℚ) ≤ (sLat : ℚ) := by exact_mod_cast hsLat0
  have hsLngq : (0:ℚ) ≤ (sLng : ℚ) := by exact_mod_cast hsLng0
  have hlat' : 0 ≤ (((Ln % 27 ^ 4 : ℕ) : ℤ) : ℚ) * LATITUDE_PRECISION - 90 +
      ((sLat : ℚ) + 1 / 2) * (LATITUDE_PRECISION / 5) + 90 := by
    have heq : (((Ln % 27 ^ 4 : ℕ) : ℤ) : ℚ) * LATITUDE_PRECISION - 90 +
        ((sLat : ℚ) + 1 / 2) * (LATITUDE_PRECISION / 5) + 90 =
        (((Ln % 27 ^ 4 : ℕ) : ℤ) : ℚ) * LATITUDE_PRECISION +
        ((sLat : ℚ) + 1 / 2) * (LATITUDE_PRECISION / 5) := by ring
    rw [heq]
    exact add_nonneg (mul_nonneg hcastL latPrec_pos.le)
      (mul_nonneg (by linarith) (by positivity))
  have hlng' : 0 ≤ (((Gn % 27 ^ 4 : ℕ) : ℤ) : ℚ) * LONGITUDE_PRECISION - 180 +
      ((sLng : ℚ) + 1 / 2) * (LONGITUDE_PRECISION / 5) + 180 := by
    have heq : (((Gn % 27 ^ 4 : ℕ) : ℤ) : ℚ) * LONGITUDE_PRECISION - 180 +
        ((sLng : ℚ) + 1 / 2) * (LONGITUDE_PRECISION / 5) + 180 =
        (((Gn % 27 ^ 4 : ℕ) : ℤ) : ℚ) * LONGITUDE_PRECISION +
        ((sLng : ℚ) + 1 / 2) * (LONGITUDE_PRECISION / 5) := by ring
    rw [heq]
    exact add_nonneg (mul_nonneg hcastG lngPrec_pos.le)
      (mul_nonneg (by linarith) (by positivity))
  rw [coordinateToGridCode_eq _ _ hlat' hlng']
  rw [lngPrec_eq]
  have e1 : (((Ln % 27 ^ 4 : ℕ) : ℤ) : ℚ) * LATITUDE_PRECISION - 90 +
      ((sLat : ℚ) + 1 / 2) * (LATITUDE_PRECISION / 5) + 90 =
      (((Ln % 27 ^ 4 : ℕ) : ℤ) : ℚ) * LATITUDE_PRECISION +
      ((sLat : ℚ) + 1 / 2) * (LATITUDE_PRECISION / 5) := by ring
  have e2 : (((Gn % 27 ^ 4 : ℕ) : ℤ) : ℚ) * LATITUDE_PRECISION - 180 +
      ((sLng : ℚ) + 1 / 2) * (LATITUDE_PRECISION / 5) + 180 =
      (((Gn % 27 ^ 4 : ℕ) : ℤ) : ℚ) * LATITUDE_PRECISION +
      ((sLng : ℚ) + 1 / 2) * (LATITUDE_PRECISION / 5) := by ring
  rw [e1, e2]
  rw [(requant_center _ sLat hsLat0 hsLat5).1, (requant_center _ sLat hsLat0 hsLat5).2,
    (requant_center _ sLng hsLng0 hsLng5).1, (requant_center _ sLng hsLng0 hsLng5).2]
  rw [hSn, encodeBase32Aux_mod Ln 4, encodeBase32Aux_mod Gn 4]

/-- Witness for C3: the idempotence theorem applied at the concrete
New Delhi coordinate (28.6139, 77.2090). -/
theorem encode_decode_encode_idempotent_witness :
    (gridCodeToCoordinate (α := ℚ)
        (coordinateToGridCode (⟨286139 / 10000, 772090 / 10000⟩ : GeoCoordinate ℚ))).map
        (fun c => coordinateToGridCode c) =
      Except.ok (coordinateToGridCode (⟨286139 / 10000, 772090 / 10000⟩ : GeoCoordinate ℚ)) :=
  encode_decode_encode_idempotent (286139 / 10000) (772090 / 10000)
    (by norm_num) (by norm_num) (by norm_num) (by norm_num)

/-! ### Concrete evaluations of the codec -/

theorem encode_origin :
    coordinateToGridCode (⟨0, 0⟩ : GeoCoordinate ℚ) = "VSR3-RMH4-22".toList := by
  rw [coordinateToGridCode_eq 0 0 (by norm_num) (by norm_num)]
  simp only [LATITUDE_PRECISION, LONGITUDE_PRECISION]
  norm_num [Int.fract]
  decide

theorem decode_origin_code :
    gridCodeToCoordinate (α := ℚ) ("VSR3-RMH4-22".toList) =
      Except.ok ⟨-47829681 / 1000000, -143489061 / 1000000⟩ := by
  have hsplit : splitOnChar '-' ("VSR3-RMH4-22".toList) =
      ["VSR3".toList, "RMH4".toList, "22".toList] := by decide
  have d1 : decodeBase32 ("VSR3".toList) = 468559 := by decide
  have d2 : decodeBase32 ("RMH4".toList) = 405677 := by decide
  have d3 : decodeBase32 ("22".toList) = 0 := by decide
  have f1 : Int.fdiv 0 5 = 0 := by decide
  have t1 : Int.tmod 0 5 = 0 := by decide
  rw [gridCodeToCoordinate, hsplit]
  simp only [d1, d2, d3, f1, t1, LATITUDE_PRECISION, LONGITUDE_PRECISION]
  norm_num [GeoCoordinate.mk.injEq]

/-- Claim C1 (refuted; the code is at fault): decoding the code of the
origin (latitude 0, longitude 0) does not return the center of the cell
containing the origin. The 4-character base-27 fields overflow: the
latitude index of the origin is 1000000 but only 1000000 mod 27^4 = 468559
survives encoding, so the decoded coordinate is about 47.8 degrees of
latitude and 143.5 degrees of longitude away from the origin, far outside
the one-cell tolerance the claim promises. -/
theorem roundtrip_leaves_cell_at_origin :
    (gridCodeToCoordinate (α := ℚ) (coordinateToGridCode (⟨0, 0⟩ : GeoCoordinate ℚ))).toOption =
        some (⟨-47829681 / 1000000, -143489061 / 1000000⟩ : GeoCoordinate ℚ) ∧
      LATITUDE_PRECISION < |(-47829681 / 1000000 : ℚ) - 0| ∧
      LONGITUDE_PRECISION < |(-143489061 / 1000000 : ℚ) - 0| := by
  refine ⟨?_, ?_, ?_⟩
  · rw [encode_origin, decode_origin_code]
    rfl
  · simp only [LATITUDE_PRECISION]
    rw [sub_zero, abs_of_nonpos (by norm_num : (-47829681 / 1000000 : ℚ) ≤ 0)]
    norm_num
  · simp only [LONGITUDE_PRECISION]
    rw [sub_zero, abs_of_nonpos (by norm_num : (-143489061 / 1000000 : ℚ) ≤ 0)]
    norm_num

/-- Claim C2 (refuted; the code is at fault): two coordinates lying in
distinct quantized cells (latitude indices 0 and 531441 = 27^4, same
longitude index and sub-index) receive the same code string `2222-2222-22`,
because `encodeBase32` silently drops every base-27 digit beyond the
fourth. -/
theorem distinct_cells_share_code :
    coordinateToGridCode (⟨-90, -180⟩ : GeoCoordinate ℚ) =
        coordinateToGridCode (⟨-90 + 531441 * (9 / 100000), -180⟩ : GeoCoordinate ℚ) ∧
      ⌊((-90 + 531441 * (9 / 100000) : ℚ) + 90) / LATITUDE_PRECISION⌋ ≠
        ⌊((-90 : ℚ) + 90) / LATITUDE_PRECISION⌋ := by
  constructor
  · have e1 : coordinateToGridCode (⟨-90, -180⟩ : GeoCoordinate ℚ) =
        "2222-2222-22".toList := by
      rw [coordinateToGridCode_eq (-90) (-180) (by norm_num) (by norm_num)]
      simp only [LATITUDE_PRECISION, LONGITUDE_PRECISION]
      norm_num [Int.fract]
      decide
    have e2 : coordinateToGridCode
        (⟨-90 + 531441 * (9 / 100000), -180⟩ : GeoCoordinate ℚ) =
        "2222-2222-22".toList := by
      rw [coordinateToGridCode_eq _ _ (by norm_num) (by norm_num)]
      simp only [LATITUDE_PRECISION, LONGITUDE_PRECISION]
      norm_num [Int.fract]
      decide
    rw [e1, e2]
  · simp only [LATITUDE_PRECISION]
    norm_num

theorem encode_delhi :
    coordinateToGridCode (⟨286139 / 10000, 772090 / 10000⟩ : GeoCoordinate ℚ) =
      "GXVB-D79B-2B".toList := by
  rw [coordinateToGridCode_eq _ _ (by norm_num) (by norm_num)]
  simp only [LATITUDE_PRECISION, LONGITUDE_PRECISION]
  norm_num [Int.fract]
  decide

theorem decode_delhi_code :
    gridCodeToCoordinate (α := ℚ) ("GXVB-D79B-2B".toList) =
      Except.ok ⟨-67045473 / 1000000, -161939457 / 1000000⟩ := by
  have hsplit : splitOnChar '-' ("GXVB-D79B-2B".toList) =
      ["GXVB".toList, "D79B".toList, "2B".toList] := by decide
  have d1 : decodeBase32 ("GXVB".toList) = 255050 := by decide
  have d2 : decodeBase32 ("D79B".toList) = 200672 := by decide
  have d3 : decodeBase32 ("2B".toList) = 8 := by decide
  have f1 : Int.fdiv 8 5 = 1 := by decide
  have t1 : Int.tmod 8 5 = 3 := by decide
  rw [gridCodeToCoordinate, hsplit]
  simp only [d1, d2, d3, f1, t1, LATITUDE_PRECISION, LONGITUDE_PRECISION]
  norm_num [GeoCoordinate.mk.injEq]

/-- Claim C6 (refuted in its distance part; the code is at fault): the
New Delhi coordinate (28.6139, 77.2090) does produce the 12-character,
well-shaped code `GXVB-D79B-2B`, but decoding that code returns a
coordinate more than 95 degrees of latitude away from the input (about
ten thousand kilometers), not within ~10 meters: the quantization indices
overflow the 4-character base-27 fields. -/
theorem delhi_code_shape_but_decode_far :
    (coordinateToGridCode (⟨286139 / 10000, 772090 / 10000⟩ : GeoCoordinate ℚ)).length = 12 ∧
      isValidGridCode
        (coordinateToGridCode (⟨286139 / 10000, 772090 / 10000⟩ : GeoCoordinate ℚ)) = true ∧
      (gridCodeToCoordinate (α := ℚ)
          (coordinateToGridCode (⟨286139 / 10000, 772090 / 10000⟩ : GeoCoordinate ℚ))).toOption =
        some (⟨-67045473 / 1000000, -161939457 / 1000000⟩ : GeoCoordinate ℚ) ∧
      1 < |(-67045473 / 1000000 : ℚ) - 286139 / 10000| := by
  refine ⟨?_, ?_, ?_, ?_⟩
  · rw [encode_delhi]
    decide
  · rw [encode_delhi]
    decide
  · rw [encode_delhi, decode_delhi_code]
    rfl
  · rw [abs_of_nonpos (by norm_num : (-67045473 / 1000000 : ℚ) - 286139 / 10000 ≤ 0)]
    norm_num

/-! ### Claim C4: when does `gridCodeToCoordinate` fail? -/

/-- Counterexample to claim C4: the malformed string `A-B-C` (groups of
length 1 drawn from outside the alphabet) splits into three parts, so
`gridCodeToCoordinate` happily decodes it (via `indexOf = -1`) instead of
raising the InvalidFormat error the claim requires for every malformed
input. -/
theorem decode_accepts_malformed_groups :
    (gridCodeToCoordinate (α := ℚ) ("A-B-C".toList)).toOption ≠ none ∧
      splitOnChar '-' ("A-B-C".toList) = [['A'], ['B'], ['C']] ∧
      isValidGridCode ("A-B-C".toList) = false := by
  refine ⟨?_, by decide, by decide⟩
  have hsplit : splitOnChar '-' ("A-B-C".toList) = [['A'], ['B'], ['C']] := by decide
  rw [gridCodeToCoordinate, hsplit]
  simp [Except.toOption]

/-- Claim C4 as amended: `gridCodeToCoordinate` raises its error exactly
when splitting the input on `-` does not yield exactly three groups; the
lengths of the groups and the membership of their characters in the
alphabet are not checked at all. -/
theorem decode_error_iff_not_three_parts (s : Str) :
    (gridCodeToCoordinate (α := ℚ) s).toOption = none ↔
      (splitOnChar '-' s).length ≠ 3 := by
  rcases h : splitOnChar '-' s with _ | ⟨a, _ | ⟨b, _ | ⟨c, _ | ⟨d, rest⟩⟩⟩⟩ <;>
    simp [gridCodeToCoordinate, h, Except.toOption]

/-! ### Claim C5: validation -/

theorem isValid_of_parts (Ln Gn Sn : ℕ) :
    isValidGridCode (encodeBase32Aux (Ln : ℤ) 4 ++
      '-' :: (encodeBase32Aux (Gn : ℤ) 4 ++ '-' :: encodeBase32Aux (Sn : ℤ) 2)) = true := by
  rw [isValidGridCode,
    splitOnChar_code _ _ _ (Int.natCast_nonneg _) (Int.natCast_nonneg _) (Int.natCast_nonneg _)]
  simp [length_encodeBase32Aux, List.all_eq_true]
  refine ⟨⟨fun c hc => ?_, fun c hc => ?_⟩, fun c hc => ?_⟩ <;>
    exact mem_encodeBase32Aux _ _ c hc

theorem encode_parts_nat (lat lng : ℚ) (hlat : 0 ≤ lat + 90) (hlng : 0 ≤ lng + 180) :
    ∃ Ln Gn Sn : ℕ, coordinateToGridCode ⟨lat, lng⟩ =
      encodeBase32Aux (Ln : ℤ) 4 ++
        '-' :: (encodeBase32Aux (Gn : ℤ) 4 ++ '-' :: encodeBase32Aux (Sn : ℤ) 2) := by
  have hp : (0 : ℚ) < LATITUDE_PRECISION := latPrec_pos
  have hL0 : 0 ≤ ⌊(lat + 90) / LATITUDE_PRECISION⌋ :=
    Int.floor_nonneg.mpr (div_nonneg hlat hp.le)
  have hG0 : 0 ≤ ⌊(lng + 180) / LONGITUDE_PRECISION⌋ :=
    Int.floor_nonneg.mpr (div_nonneg hlng lngPrec_pos.le)
  have hsLat0 : 0 ≤ ⌊Int.fract ((lat + 90) / LATITUDE_PRECISION) * 5⌋ :=
    Int.floor_nonneg.mpr (mul_nonneg (Int.fract_nonneg _) (by norm_num))
  have hsLng0 : 0 ≤ ⌊Int.fract ((lng + 180) / LONGITUDE_PRECISION) * 5⌋ :=
    Int.floor_nonneg.mpr (mul_nonneg (Int.fract_nonneg _) (by norm_num))
  have hS0 : 0 ≤ ⌊Int.fract ((lat + 90) / LATITUDE_PRECISION) * 5⌋ * 5 +
      ⌊Int.fract ((lng + 180) / LONGITUDE_PRECISION) * 5⌋ := by positivity
  obtain ⟨Ln, hLn⟩ := Int.eq_ofNat_of_zero_le hL0
  obtain ⟨Gn, hGn⟩ := Int.eq_ofNat_of_zero_le hG0
  obtain ⟨Sn, hSn⟩ := Int.eq_ofNat_of_zero_le hS0
  exact ⟨Ln, Gn, Sn, by rw [coordinateToGridCode_eq lat lng hlat hlng, hLn, hGn, hSn]⟩

/-- Claim C5: every code produced by `coordinateToGridCode` on a valid
coordinate passes `isValidGridCode`; and `isValidGridCode` accepts a
string exactly when it decomposes as three hyphen-separated groups of
lengths 4, 4 and 2 whose characters all belong to the 27-character
alphabet — so every string with wrong segment lengths, wrong separator
placement, lowercase letters or excluded characters is rejected. -/
theorem isValidGridCode_spec :
    (∀ lat lng : ℚ, -90 ≤ lat → lat ≤ 90 → -180 ≤ lng → lng ≤ 180 →
        isValidGridCode (coordinateToGridCode ⟨lat, lng⟩) = true) ∧
      ∀ s : Str, isValidGridCode s = true ↔
        ∃ a b c : Str, s = a ++ '-' :: (b ++ '-' :: c) ∧
          a.length = 4 ∧ b.length = 4 ∧ c.length = 2 ∧
          (∀ ch ∈ a, ch ∈ ALPHABET_LIST) ∧ (∀ ch ∈ b, ch ∈ ALPHABET_LIST) ∧
          ∀ ch ∈ c, ch ∈ ALPHABET_LIST := by
  constructor
  · intro lat lng h1 h2 h3 h4
    obtain ⟨Ln, Gn, Sn, hparts⟩ :=
      encode_parts_nat lat lng (by linarith) (by linarith)
    rw [hparts]
    exact isValid_of_parts Ln Gn Sn
  · intro s
    constructor
    · intro hv
      rcases h : splitOnChar '-' s with _ | ⟨a, _ | ⟨b, _ | ⟨c, _ | ⟨d, rest⟩⟩⟩⟩ <;>
        rw [isValidGridCode, h] at hv <;> simp at hv
      obtain ⟨hs, ha, hb, hc⟩ := splitOnChar_eq_three_iff.mp h
      refine ⟨a, b, c, hs, ?_, ?_, ?_, ?_, ?_, ?_⟩ <;> tauto
    · rintro ⟨a, b, c, rfl, h4a, h4b, h2c, ha, hb, hc⟩
      have hna : '-' ∉ a := fun hd => dash_not_mem_alphabet (ha '-' hd)
      have hnb : '-' ∉ b := fun hd => dash_not_mem_alphabet (hb '-' hd)
      have hnc : '-' ∉ c := fun hd => dash_not_mem_alphabet (hc '-' hd)
      rw [isValidGridCode, splitOnChar_eq_three_iff.mpr ⟨rfl, hna, hnb, hnc⟩]
      simp [h4a, h4b, h2c, List.all_eq_true]
      exact ⟨⟨ha, hb⟩, hc⟩

/-- Witness for C5: validation soundness at the New Delhi coordinate. -/
theorem isValidGridCode_spec_witness :
    isValidGridCode
      (coordinateToGridCode (⟨286139 / 10000, 772090 / 10000⟩ : GeoCoordinate ℚ)) = true :=
  isValidGridCode_spec.1 (286139 / 10000) (772090 / 10000)
    (by norm_num) (by norm_num) (by norm_num) (by norm_num)

/-! ### Claim C9: `formatDistance` -/

/-- Claim C9: `formatDistance` renders meters below 1000 as the nearest
integer followed by `m` and meters at or above 1000 as the value divided
by 1000 with one decimal digit followed by `km`; the rendered integer is
within 1/2 of the input and the rendered decimal within 1/20 of the
kilometer value, and the four concrete examples of the claim hold. -/
theorem formatDistance_spec :
    (∀ m : ℚ, formatDistance m =
        if m < 1000 then intToStr (jsRound m) ++ ['m'] else toFixed1 (m / 1000) ++ ['k', 'm']) ∧
      (∀ m : ℚ, |((jsRound m : ℤ) : ℚ) - m| ≤ 1 / 2) ∧
      (∀ x : ℚ, |((⌊x * 10 + 1 / 2⌋ : ℤ) : ℚ) / 10 - x| ≤ 1 / 20) ∧
      formatDistance (50 : ℚ) = "50m".toList ∧
      formatDistance (999 : ℚ) = "999m".toList ∧
      formatDistance (1000 : ℚ) = "1.0km".toList ∧
      formatDistance (2500 : ℚ) = "2.5km".toList := by
  refine ⟨fun m => rfl, fun m => ?_, fun x => ?_, ?_, ?_, ?_, ?_⟩
  · rw [jsRound, abs_le]
    constructor
    · linarith [Int.lt_floor_add_one (m + 1 / 2)]
    · linarith [Int.floor_le (m + 1 / 2)]
  · rw [abs_le]
    constructor
    · linarith [Int.lt_floor_add_one (x * 10 + 1 / 2)]
    · linarith [Int.floor_le (x * 10 + 1 / 2)]
  · rw [formatDistance, if_pos (by norm_num : (50 : ℚ) < 1000)]
    have h : jsRound (50 : ℚ) = 50 := by
      rw [jsRound]
      norm_num
    rw [h]
    decide
  · rw [formatDistance, if_pos (by norm_num : (999 : ℚ) < 1000)]
    have h : jsRound (999 : ℚ) = 999 := by
      rw [jsRound]
      norm_num
    rw [h]
    decide
  · rw [formatDistance, if_neg (by norm_num : ¬ (1000 : ℚ) < 1000), toFixed1]
    have h : ⌊(1000 : ℚ) / 1000 * 10 + 1 / 2⌋ = 10 := by norm_num
    rw [h]
    decide
  · rw [formatDistance, if_neg (by norm_num : ¬ (2500 : ℚ) < 1000), toFixed1]
    have h : ⌊(2500 : ℚ) / 1000 * 10 + 1 / 2⌋ = 25 := by norm_num
    rw [h]
    decide

theorem arctan_nonneg_of_nonneg {t : ℝ} (h : 0 ≤ t) : 0 ≤ Real.arctan t := by
  have hm := Real.arctan_strictMono.monotone h
  rwa [Real.arctan_zero] at hm

theorem atan2_nonneg {y : ℝ} (x : ℝ) (hy : 0 ≤ y) : 0 ≤ atan2 y x := by
  rcases lt_trichotomy x 0 with hx | hx | hx
  · rw [atan2, if_neg (by linarith), if_pos hx, if_pos hy]
    have h1 := Real.neg_pi_div_two_lt_arctan (y / x)
    have h2 := Real.pi_pos
    linarith
  · subst hx
    rw [atan2, if_neg (by linarith), if_neg (by linarith)]
    rcases eq_or_lt_of_le hy with hy0 | hy0
    · rw [if_neg (by linarith), if_neg (by linarith)]
    · rw [if_pos hy0]
      positivity
  · rw [atan2, if_pos hx]
    exact arctan_nonneg_of_nonneg (div_nonneg hy hx.le)

theorem getDistance_self (c : GeoCoordinate ℝ) : getDistance c c = 0 := by
  simp only [getDistance, sub_self, zero_mul, zero_div, Real.sin_zero, mul_zero, zero_add,
    add_zero, Real.sqrt_zero, sub_zero, Real.sqrt_one]
  rw [atan2, if_pos (by norm_num : (0 : ℝ) < 1)]
  norm_num [Real.arctan_zero]

theorem getDistance_nonneg (A B : GeoCoordinate ℝ) : 0 ≤ getDistance A B := by
  simp only [getDistance]
  exact mul_nonneg (by norm_num)
    (mul_nonneg (by norm_num) (atan2_nonneg _ (Real.sqrt_nonneg _)))

theorem hav_a_comm (p q u v : ℝ) :
    Real.sin ((q - p) * Real.pi / 180 / 2) * Real.sin ((q - p) * Real.pi / 180 / 2) +
      Real.cos (p * Real.pi / 180) * Real.cos (q * Real.pi / 180) *
        Real.sin ((v - u) * Real.pi / 180 / 2) * Real.sin ((v - u) * Real.pi / 180 / 2) =
    Real.sin ((p - q) * Real.pi / 180 / 2) * Real.sin ((p - q) * Real.pi / 180 / 2) +
      Real.cos (q * Real.pi / 180) * Real.cos (p * Real.pi / 180) *
        Real.sin ((u - v) * Real.pi / 180 / 2) * Real.sin ((u - v) * Real.pi / 180 / 2) := by
  rw [show (p - q) * Real.pi / 180 / 2 = -((q - p) * Real.pi / 180 / 2) by ring,
    show (u - v) * Real.pi / 180 / 2 = -((v - u) * Real.pi / 180 / 2) by ring]
  simp only [Real.sin_neg]
  ring

theorem getDistance_comm (A B : GeoCoordinate ℝ) : getDistance A B = getDistance B A := by
  simp only [getDistance]
  rw [hav_a_comm A.latitude B.latitude A.longitude B.longitude]

/-- Counterexample to the only-if part of claim C7: the two distinct
coordinates at the north pole with longitudes 0 and 90 have haversine
distance 0. -/
theorem getDistance_zero_of_distinct_poles :
    getDistance ⟨90, 0⟩ ⟨90, 90⟩ = 0 ∧ (⟨90, 0⟩ : GeoCoordinate ℝ) ≠ ⟨90, 90⟩ := by
  constructor
  · simp only [getDistance, sub_self, zero_mul, zero_div, Real.sin_zero, mul_zero, zero_add]
    rw [show (90 : ℝ) * Real.pi / 180 = Real.pi / 2 by ring, Real.cos_pi_div_two]
    norm_num [Real.sqrt_one, atan2]
  · intro h
    have := congrArg GeoCoordinate.longitude h
    norm_num at this

/-- Claim C7 as amended: `getDistance` is symmetric, vanishes on equal
coordinates and is non-negative everywhere (and, being a total real-valued
function, never raises); but distance zero does not imply that the two
coordinates are identical (see the pole counterexample). -/
theorem getDistance_metric_properties :
    (∀ A B : GeoCoordinate ℝ, getDistance A B = getDistance B A) ∧
      (∀ A : GeoCoordinate ℝ, getDistance A A = 0) ∧
      ∀ A B : GeoCoordinate ℝ, 0 ≤ getDistance A B :=
  ⟨getDistance_comm, getDistance_self, getDistance_nonneg⟩

theorem insertIfNew_nodup {l : List Str} (h : l.Nodup) (s : Str) :
    (insertIfNew l s).Nodup := by
  rw [insertIfNew]
  split_ifs with hs
  · exact h
  · rw [List.nodup_append]
    exact ⟨h, List.nodup_singleton s, by simpa using hs⟩

theorem foldl_nodup {β : Type} (f : List Str → β → List Str)
    (hf : ∀ acc b, acc.Nodup → (f acc b).Nodup) :
    ∀ (xs : List β) (acc : List Str), acc.Nodup → (xs.foldl f acc).Nodup := by
  intro xs
  induction xs with
  | nil => exact fun acc h => h
  | cons x xs ih => exact fun acc h => ih _ (hf acc x h)

theorem loopCount_self (x step : ℝ) : loopCount x x step = 1 := by
  rw [loopCount, if_pos le_rfl]
  norm_num

/-- With radius 0 the sweep degenerates to the single sample point at the
center, whose distance to itself is 0, so exactly the center's own code is
returned. -/
theorem getGridCodesInRadius_zero (center : GeoCoordinate ℝ) :
    getGridCodesInRadius center 0 = [coordinateToGridCode center] := by
  obtain ⟨clat, clng⟩ := center
  simp only [getGridCodesInRadius, zero_div, sub_zero, add_zero, loopCount_self]
  simp only [show List.range 1 = [0] from rfl, List.foldl_cons, List.foldl_nil,
    Nat.cast_zero, zero_mul, add_zero]
  rw [getDistance_self, if_pos le_rfl]
  rw [insertIfNew, if_neg (List.not_mem_nil _)]
  rfl

/-- Claim C8: the enumerated code list never contains duplicates, and with
radius 0 the call does not fail and its result contains (exactly) the
center's own code. -/
theorem radius_codes_nodup_and_zero_radius :
    (∀ (center : GeoCoordinate ℝ) (radiusMeters : ℝ),
        (getGridCodesInRadius center radiusMeters).Nodup) ∧
      ∀ center : GeoCoordinate ℝ,
        coordinateToGridCode center ∈ getGridCodesInRadius center 0 := by
  constructor
  · intro center r
    rw [getGridCodesInRadius]
    apply foldl_nodup _ ?_ _ _ List.nodup_nil
    intro acc i hacc
    apply foldl_nodup _ ?_ _ _ hacc
    intro acc2 j h2
    dsimp only
    split_ifs with hd
    · exact insertIfNew_nodup h2 _
    · exact h2
  · intro center
    rw [getGridCodesInRadius_zero]
    exact List.mem_singleton_self _

/-- Claim C10: for a strictly negative radius the computed degree spans
are negative, the loop bounds are empty, and the function returns the
empty list without failing. -/
theorem negative_radius_empty (center : GeoCoordinate ℝ) (radiusMeters : ℝ)
    (h1 : -90 < center.latitude) (h2 : center.latitude < 90) (hr : radiusMeters < 0) :
    getGridCodesInRadius center radiusMeters = [] := by
  simp only [getGridCodesInRadius]
  have hneg : radiusMeters / 111000 < 0 := div_neg_of_neg_of_pos hr (by norm_num)
  have hlc : loopCount (center.latitude - radiusMeters / 111000)
      (center.latitude + radiusMeters / 111000) LATITUDE_PRECISION = 0 := by
    rw [loopCount, if_neg (by linarith)]
  rw [hlc]
  simp [List.range_zero]

/-- Witness for C10 at center (0, 0) and radius -1. -/
theorem negative_radius_empty_witness :
    getGridCodesInRadius ⟨0, 0⟩ (-1) = [] :=
  negative_radius_empty ⟨0, 0⟩ (-1) (by norm_num) (by norm_num) (by norm_num)
